import Mathlib

/-!
Verification of the "Baseball Pick 4" weekly settlement pipeline
(`Pick4baseball/core/services/`: `winner_service.py`, `balance_service.py`,
`scoring_service.py`, `mlb_results_service.py`, `mlb_results_service_v2.py`,
and the Stripe payment handler in `core/views.py`).

Embedding conventions:
* `Decimal` money amounts are modelled as exact rationals (`ℚ`); every money
  operation in the modelled code is addition, subtraction, multiplication by a
  constant, or division, all exact here.
* Database tables are modelled as Lean lists of rows; Django `filter`,
  `get_or_create`, `update`+`save` become list filtering, lookup-or-append,
  and keyed in-place updates.
* Timestamps (`scored_at`, `verified_at`, `payment_date`) are not modelled:
  no claim refers to them.
-/

namespace Pick4

/-! ## Weeks -/

/-- A `Week` row (`core/models.py`), identified by season and week number. -/
structure WeekT where
  weekNumber : Nat
  seasonYear : Nat
deriving DecidableEq, Repr

/-- `Week.objects.filter(season_year=week.season_year,
week_number=week.week_number + 1).first()` from
`WinnerService.handle_rollover`. -/
def nextWeek (weeks : List WeekT) (w : WeekT) : Option WeekT :=
  weeks.find? (fun x => x.seasonYear == w.seasonYear && x.weekNumber == w.weekNumber + 1)

/-! ## Picks and perfect pickers (`winner_service.py`) -/

/-- A `Pick` row: a user's choice of a player for a category in a week,
scoped to a team.  `pointsEarned` is 0 or 1 after scoring. -/
structure Pick where
  user : Nat
  team : Nat
  week : WeekT
  player : Nat
  category : String
  resultStatus : String
  pointsEarned : Nat
  notes : String
deriving DecidableEq, Repr

/-- `Sum('points_earned')` over the picks of the `(user, team)` group in
`WinnerService.get_perfect_pickers`. -/
def userScoreSum (picks : List Pick) (u t : Nat) : Nat :=
  ((picks.filter fun p => p.user == u && p.team == t).map Pick.pointsEarned).sum

/-- `Count('id')` over the picks of the `(user, team)` group. -/
def userPickCount (picks : List Pick) (u t : Nat) : Nat :=
  (picks.filter fun p => p.user == u && p.team == t).length

/-- The distinct `(user, team)` groups produced by
`Pick.objects.filter(week=week).values('user', ..., 'team', ...)`. -/
def userTeamPairs (picks : List Pick) : List (Nat × Nat) :=
  (picks.map fun p => (p.user, p.team)).dedup

/-- `WinnerService.get_perfect_pickers`: the `(user, team)` groups whose
summed `points_earned` is 4 and whose pick count is 4. -/
def getPerfectPickers (picks : List Pick) : List (Nat × Nat) :=
  (userTeamPairs picks).filter
    (fun ut => userScoreSum picks ut.1 ut.2 == 4 && userPickCount picks ut.1 ut.2 == 4)

/-! ## Balance / ledger (`balance_service.py`) -/

/-- The balance-relevant part of a `UserProfile` row. -/
structure Profile where
  accountBalance : ℚ
  lowBalanceThreshold : ℚ
  lowBalanceAlertSent : Bool
deriving DecidableEq, Repr

/-- An `AccountTransaction` row (append-only audit log). -/
structure AccountTransaction where
  user : Nat
  transactionType : String
  amount : ℚ
  balanceBefore : ℚ
  balanceAfter : ℚ
  status : String
  description : String
deriving DecidableEq, Repr

/-- `BalanceService.add_to_balance`: adds `amount` to the balance, clears the
low-balance alert flag, and appends a completed `deposit` transaction.
Returns the transaction together with the updated profile and log. -/
def addToBalance (userId : Nat) (profile : Profile) (txns : List AccountTransaction)
    (amount : ℚ) (description : String) :
    AccountTransaction × Profile × List AccountTransaction :=
  let balanceBefore := profile.accountBalance
  let profile' := { profile with
    accountBalance := profile.accountBalance + amount
    lowBalanceAlertSent := false }
  let txn : AccountTransaction :=
    { user := userId
      transactionType := "deposit"
      amount := amount
      balanceBefore := balanceBefore
      balanceAfter := profile'.accountBalance
      status := "completed"
      description := description }
  (txn, profile', txns ++ [txn])

/-- `BalanceService.deduct_from_balance`: returns `none` (and leaves the
profile and log unchanged) when the balance is insufficient; otherwise
deducts, possibly flags the low-balance alert, and appends a completed
`payment` transaction. -/
def deductFromBalance (userId : Nat) (profile : Profile) (txns : List AccountTransaction)
    (amount : ℚ) (description : String) :
    Option AccountTransaction × Profile × List AccountTransaction :=
  if profile.accountBalance < amount then
    (none, profile, txns)
  else
    let balanceBefore := profile.accountBalance
    let profile' := { profile with accountBalance := profile.accountBalance - amount }
    let profile'' :=
      if profile'.accountBalance < profile'.lowBalanceThreshold
          && !profile'.lowBalanceAlertSent then
        { profile' with lowBalanceAlertSent := true }
      else profile'
    let txn : AccountTransaction :=
      { user := userId
        transactionType := "payment"
        amount := amount
        balanceBefore := balanceBefore
        balanceAfter := profile'.accountBalance
        status := "completed"
        description := description }
    (some txn, profile'', txns ++ [txn])

/-! ## Prize pools (`winner_service.py`, `core/views.py`) -/

/-- The claim-relevant fields of a `WeeklyPrizePool` row, keyed by
`(team, week)`.  (`per_pick_value`, `rollover_to_next` and `scored_at` are
not referenced by any claim and are omitted.) -/
structure PrizePool where
  team : Nat
  week : WeekT
  totalCollected : ℚ
  rolloverFromPrevious : ℚ
  weeklyPoolAmount : ℚ
  seasonPotContribution : ℚ
  companyFee : ℚ
  numPerfectPicks : Nat
  payoutPerWinner : ℚ
  isScored : Bool
deriving DecidableEq, Repr

/-- Key match for the `(team, week)` unique-together constraint of
`WeeklyPrizePool`. -/
def poolMatches (t : Nat) (w : WeekT) (q : PrizePool) : Bool :=
  q.team == t && q.week == w

/-- `WeeklyPrizePool.objects.filter(team=t, week=w).first()`-style lookup:
the first row with the given key. -/
def lookupPool (table : List PrizePool) (t : Nat) (w : WeekT) : Option PrizePool :=
  table.find? (poolMatches t w)

/-- Save a modified row back under its `(team, week)` key. -/
def updatePool (table : List PrizePool) (t : Nat) (w : WeekT)
    (f : PrizePool → PrizePool) : List PrizePool :=
  table.map (fun q => if poolMatches t w q then f q else q)

/-- `f` modifies only non-key fields of a pool row. -/
def PreservesPoolKey (f : PrizePool → PrizePool) : Prop :=
  ∀ q : PrizePool, (f q).team = q.team ∧ (f q).week = q.week

/-- Number of winners belonging to one team:
`[p for p in perfect_pickers if p['team_id'] == prize_pool.team_id]`. -/
def teamWinnerCount (winners : List (Nat × Nat)) (t : Nat) : Nat :=
  (winners.filter (fun ut => ut.2 == t)).length

/-- `WinnerService.calculate_payouts`, pool part: with no pool rows for the
week it returns the table unchanged and a zero payout; otherwise it pools
`weekly_pool_amount` plus `rollover_from_previous` across *all* of the week's
pools, divides by the system-wide number of winners, and stores on every pool
of the week its own team's winner count, the shared payout, `is_scored=True`,
and a zeroed `rollover_from_previous`.  Returns
`(updated table, payout_per_winner, total_paid_out)`. -/
def calculatePayouts (table : List PrizePool) (w : WeekT) (winners : List (Nat × Nat)) :
    List PrizePool × ℚ × ℚ :=
  let pools := table.filter (fun p => p.week == w)
  if pools.isEmpty then (table, 0, 0)
  else
    let totalWeekly := (pools.map PrizePool.weeklyPoolAmount).sum
    let totalRollover := (pools.map PrizePool.rolloverFromPrevious).sum
    let totalAvailable := totalWeekly + totalRollover
    let payout := if winners.length > 0 then totalAvailable / (winners.length : ℚ) else 0
    let table' := table.map fun p =>
      if p.week == w then
        { p with numPerfectPicks := teamWinnerCount winners p.team
                 payoutPerWinner := payout
                 isScored := true
                 rolloverFromPrevious := 0 }
      else p
    (table', payout, payout * (winners.length : ℚ))

/-- The update `handle_rollover` applies to the current week's pool after
moving its funds: zero rollover, no perfect picks, zero payout, scored.  When
`addToSeason` is true (no next week exists) the moved amount is added to
`season_pot_contribution` first. -/
def scoreNoWinner (amount : ℚ) (addToSeason : Bool) (p : PrizePool) : PrizePool :=
  { p with
    seasonPotContribution :=
      if addToSeason then p.seasonPotContribution + amount else p.seasonPotContribution
    numPerfectPicks := 0
    payoutPerWinner := 0
    isScored := true
    rolloverFromPrevious := 0 }

/-- The pool row `get_or_create` builds for the next week, with
`defaults={'rollover_from_previous': rollover_amount}` and model-field
defaults everywhere else. -/
def newRolloverPool (t : Nat) (w : WeekT) (amount : ℚ) : PrizePool :=
  { team := t
    week := w
    totalCollected := 0
    rolloverFromPrevious := amount
    weeklyPoolAmount := 0
    seasonPotContribution := 0
    companyFee := 0
    numPerfectPicks := 0
    payoutPerWinner := 0
    isScored := false }

/-- One iteration of the `for prize_pool in prize_pools` loop of
`WinnerService.handle_rollover`, threading the whole pool table and the
running `total_rolled_over`. -/
def rolloverStep (weeks : List WeekT) (w : WeekT)
    (acc : List PrizePool × ℚ) (p : PrizePool) : List PrizePool × ℚ :=
  let amount := p.weeklyPoolAmount + p.rolloverFromPrevious
  match nextWeek weeks w with
  | some nw =>
      let table' :=
        match lookupPool acc.1 p.team nw with
        | some _ =>
            updatePool acc.1 p.team nw
              (fun np => { np with rolloverFromPrevious := np.rolloverFromPrevious + amount })
        | none => acc.1 ++ [newRolloverPool p.team nw amount]
      (updatePool table' p.team w (scoreNoWinner amount false), acc.2 + amount)
  | none =>
      (updatePool acc.1 p.team w (scoreNoWinner amount true), acc.2 + amount)

/-- `WinnerService.handle_rollover`: iterate over the week's pools, moving
each pool's `weekly_pool_amount + rollover_from_previous` to the next week's
pool (created if absent) or, when no next week exists, into the pool's own
`season_pot_contribution`; each current pool ends scored with zero rollover.
Returns the table and `total_rolled_over`. -/
def handleRollover (weeks : List WeekT) (w : WeekT) (table : List PrizePool) :
    List PrizePool × ℚ :=
  (table.filter (fun p => p.week == w)).foldl (rolloverStep weeks w) (table, 0)

/-- The 80/10/10 money invariant of a `WeeklyPrizePool` row. -/
def PoolInvariant (p : PrizePool) : Prop :=
  p.weeklyPoolAmount + p.seasonPotContribution + p.companyFee = p.totalCollected

instance : DecidablePred PoolInvariant := fun p => by
  unfold PoolInvariant; infer_instance

/-- The pool mutation in `handle_payment_success` (`core/views.py`): add the
payment amount to `total_collected` and split it 80/10/10 into
`weekly_pool_amount`, `season_pot_contribution` and `company_fee`.  The row
is created with zeroed money fields first when absent. -/
def applyPaymentToPool (p : PrizePool) (amount : ℚ) : PrizePool :=
  { p with
    totalCollected := p.totalCollected + amount
    weeklyPoolAmount := p.weeklyPoolAmount + amount * (8/10 : ℚ)
    seasonPotContribution := p.seasonPotContribution + amount * (1/10 : ℚ)
    companyFee := p.companyFee + amount * (1/10 : ℚ) }

/-- `handle_payment_success` on the pool table: `get_or_create` the
`(team, week)` row with zeroed defaults, then apply the 80/10/10 split. -/
def handlePaymentSuccess (table : List PrizePool) (t : Nat) (w : WeekT) (amount : ℚ) :
    List PrizePool :=
  match lookupPool table t w with
  | some _ => updatePool table t w (fun p => applyPaymentToPool p amount)
  | none => table ++ [applyPaymentToPool (newRolloverPool t w 0) amount]

/-! ## User standings (`winner_service.py` / `core/models.py`) -/

/-- A `UserStanding` row, keyed by `(user, team, season_year)`. -/
structure UserStanding where
  user : Nat
  team : Nat
  seasonYear : Nat
  totalPoints : Nat
  totalPicksMade : Nat
  totalPicksHit : Nat
  accuracyPercentage : ℚ
  weeksParticipated : Nat
  perfectWeeks : Nat
  highestWeeklyScore : Nat
  currentStreak : Nat
  longestStreak : Nat
  totalWinnings : ℚ
deriving DecidableEq, Repr

/-- The row `get_or_create` builds in `update_user_standings` (all counters
zero, matching both the call's `defaults` and the model-field defaults). -/
def defaultStanding (u t sy : Nat) : UserStanding :=
  ⟨u, t, sy, 0, 0, 0, 0, 0, 0, 0, 0, 0, 0⟩

/-- `UserStanding.update_accuracy`. -/
def updateAccuracy (s : UserStanding) : UserStanding :=
  if s.totalPicksMade > 0 then
    { s with accuracyPercentage := (s.totalPicksHit : ℚ) / (s.totalPicksMade : ℚ) * 100 }
  else
    { s with accuracyPercentage := 0 }

/-- The field updates of `WinnerService.update_user_standings` after the row
is fetched or created: incremental points/picks/weeks, perfect-week bump,
winnings, accuracy, streaks, and highest weekly score. -/
def applyStandingUpdate (s : UserStanding) (points : Nat) (winnings : ℚ) : UserStanding :=
  let s1 := { s with totalPoints := s.totalPoints + points
                     totalPicksMade := s.totalPicksMade + 4
                     totalPicksHit := s.totalPicksHit + points
                     weeksParticipated := s.weeksParticipated + 1 }
  let s2 := if points == 4 then { s1 with perfectWeeks := s1.perfectWeeks + 1 } else s1
  let s3 := { s2 with totalWinnings := s2.totalWinnings + winnings }
  let s4 := updateAccuracy s3
  let s5 :=
    if points > 0 then
      { s4 with currentStreak := s4.currentStreak + 1
                longestStreak :=
                  if s4.currentStreak + 1 > s4.longestStreak then s4.currentStreak + 1
                  else s4.longestStreak }
    else { s4 with currentStreak := 0 }
  if points > s5.highestWeeklyScore then { s5 with highestWeeklyScore := points } else s5

/-- Key match for the `(user, team, season_year)` unique-together constraint. -/
def standingMatches (u t sy : Nat) (s : UserStanding) : Bool :=
  s.user == u && s.team == t && s.seasonYear == sy

/-- `WinnerService.update_user_standings` on the standings table:
`get_or_create` then the incremental update. -/
def updateUserStandings (standings : List UserStanding) (u t sy : Nat)
    (points : Nat) (winnings : ℚ) : List UserStanding :=
  match standings.find? (standingMatches u t sy) with
  | some _ =>
      standings.map (fun s =>
        if standingMatches u t sy s then applyStandingUpdate s points winnings else s)
  | none => standings ++ [applyStandingUpdate (defaultStanding u t sy) points winnings]

/-! ## Winner-determination run over the whole persisted state -/

/-- The persisted state the winner service can reach: prize pools, user
standings, user profiles (balances) and the transaction ledger. -/
structure ServiceState where
  pools : List PrizePool
  standings : List UserStanding
  profiles : List (Nat × Profile)
  transactions : List AccountTransaction
deriving DecidableEq, Repr

/-- One entry of `self.winners` as appended by `calculate_payouts`. -/
structure WinnerRecord where
  user : Nat
  team : Nat
  amount : ℚ
  weekNumber : Nat
deriving DecidableEq, Repr

/-- `WinnerService.calculate_payouts` over the whole state: the pool update,
the winner records, and one `update_user_standings` call per winner with
`points_earned=4` and `winnings=payout_per_winner`.  Returns
`(state, winner records, payout_per_winner, total_paid_out)`.  Note that no
balance or ledger mutation occurs anywhere in this code path. -/
def calculatePayoutsState (st : ServiceState) (w : WeekT) (winners : List (Nat × Nat)) :
    ServiceState × List WinnerRecord × ℚ × ℚ :=
  let res := calculatePayouts st.pools w winners
  let payout := res.2.1
  let records := winners.map (fun ut => WinnerRecord.mk ut.1 ut.2 payout w.weekNumber)
  let standings' := winners.foldl
    (fun acc ut => updateUserStandings acc ut.1 ut.2 w.seasonYear 4 payout) st.standings
  ({ st with pools := res.1, standings := standings' }, records, payout, res.2.2)

/-- `WinnerService.determine_weekly_winners`: find the perfect pickers among
the week's picks, then either the rollover path (none) or the payout path. -/
def determineWeeklyWinners (weeks : List WeekT) (w : WeekT) (picks : List Pick)
    (st : ServiceState) : ServiceState × List (Nat × Nat) :=
  let perfect := getPerfectPickers (picks.filter (fun p => p.week == w))
  if perfect.isEmpty then
    ({ st with pools := (handleRollover weeks w st.pools).1 }, [])
  else
    ((calculatePayoutsState st w perfect).1, perfect)

/-! ## Result ingestion (`mlb_results_service.py` and `mlb_results_service_v2.py`) -/

/-- The fields of a `statsapi.schedule` entry that the two ingestion services
read: `status`, `game_number`, the `rescheduled_from` key's presence,
whether the description contains "makeup", and the parsed `game_date`
(`none` when missing or unparsable). -/
structure Game where
  gameId : Nat
  status : String
  gameNumber : Nat
  hasRescheduledFrom : Bool
  descriptionHasMakeup : Bool
  gameDate : Option Nat
deriving DecidableEq, Repr

/-- The only game filter of v1's `MLBResultsService._process_game`: a game's
stats are extracted iff `game['status'] == 'Final'`. -/
def v1ProcessesGame (g : Game) : Bool :=
  g.status == "Final"

/-- v2's `MLBResultsService._is_originally_scheduled`. -/
def isOriginallyScheduled (g : Game) (saturday : Nat) : Bool :=
  if g.hasRescheduledFrom || g.descriptionHasMakeup then false
  else
    match g.gameDate with
    | some d => d == saturday
    | none => true

/-- The `valid_games` selection loop of v2's `fetch_saturday_results`:
skip Postponed/Cancelled/Suspended games, skip makeup games (when
`verify_schedule`), and keep only game 1 of a doubleheader. -/
def validGames (schedule : List Game) (saturday : Nat) (verifySchedule : Bool) : List Game :=
  schedule.filter (fun g =>
    !(g.status == "Postponed" || g.status == "Cancelled" || g.status == "Suspended") &&
    (!verifySchedule || isOriginallyScheduled g saturday) &&
    g.gameNumber == 1)

/-- A `WeeklyResult` row of the category-keyed (v1) schema, for a fixed week:
unique per (player, category), with the comma-joined `game_id` provenance. -/
structure ResultRow where
  player : Nat
  category : String
  achieved : Bool
  statValue : ℚ
  gameId : String
deriving DecidableEq, Repr

/-- `MLBResultsService._check_achievement`: category thresholds applied to an
aggregated stat value. -/
def checkAchievement (code : String) (v : ℚ) : Bool :=
  if code == "2H" then decide ((2 : ℚ) ≤ v)
  else if code == "HR" then decide ((1 : ℚ) ≤ v)
  else if code == "SWP" || code == "S" then decide ((1 : ℚ) ≤ v)
  else false

/-- Key match for the `(week, player, category)` uniqueness of
`WeeklyResult` (the week is fixed throughout a run). -/
def resultMatches (p : Nat) (c : String) (r : ResultRow) : Bool :=
  r.player == p && r.category == c

/-- `WeeklyResult.objects.get(...)`-style lookup. -/
def lookupResult (table : List ResultRow) (p : Nat) (c : String) : Option ResultRow :=
  table.find? (resultMatches p c)

/-- `MLBResultsService._create_or_update_result`: `get_or_create` with the
game's stat value and achievement flag; on an existing row, add the stat
value, re-evaluate achievement on the sum, and append the game id to the
comma-joined provenance string. -/
def createOrUpdateResult (table : List ResultRow) (p : Nat) (c : String)
    (achieved : Bool) (statValue : ℚ) (gameId : Nat) : List ResultRow :=
  match lookupResult table p c with
  | none => table ++ [⟨p, c, achieved, statValue, toString gameId⟩]
  | some _ =>
      table.map (fun r =>
        if resultMatches p c r then
          { r with statValue := r.statValue + statValue
                   achieved := checkAchievement c (r.statValue + statValue)
                   gameId := r.gameId ++ "," ++ toString gameId }
        else r)

/-- One batter's contribution in `MLBResultsService._process_batting_stats`:
`WeeklyResult` upserts for 2H and HR happen only when `hits > 0`. -/
def processBatterStats (table : List ResultRow) (p : Nat) (hits homeRuns : Nat)
    (gameId : Nat) : List ResultRow :=
  let t1 :=
    if hits > 0 then
      createOrUpdateResult table p "2H" (decide (2 ≤ hits)) (hits : ℚ) gameId
    else table
  if hits > 0 then
    createOrUpdateResult t1 p "HR" (decide (1 ≤ homeRuns)) (homeRuns : ℚ) gameId
  else t1

/-- `ScoringService._verify_pick` dispatching on the category code. -/
def verifyPick (category : String) (r : ResultRow) : Bool :=
  if category == "2H" then r.achieved && decide ((2 : ℚ) ≤ r.statValue)
  else if category == "HR" then r.achieved && decide ((1 : ℚ) ≤ r.statValue)
  else if category == "SWP" then r.achieved
  else if category == "S" then r.achieved && decide ((1 : ℚ) ≤ r.statValue)
  else false

/-- `ScoringService.score_single_pick`: a missing `WeeklyResult` row is a
miss with zero points and the no-result-data note; otherwise the category
verifier decides hit/miss. -/
def scoreSinglePick (pick : Pick) (table : List ResultRow) : Pick :=
  match lookupResult table pick.player pick.category with
  | none =>
      { pick with resultStatus := "miss"
                  pointsEarned := 0
                  notes := "No result data available (player may not have played)" }
  | some r =>
      let isHit := verifyPick pick.category r
      { pick with resultStatus := if isHit then "hit" else "miss"
                  pointsEarned := if isHit then 1 else 0
                  notes := "Actual: " ++ toString r.statValue ++ " | Achieved: "
                    ++ toString r.achieved }

end Pick4

/-! ## Theorems -/

namespace Pick4

/-- **C1.** A `(user, team)` pair is classified as a weekly winner by
`get_perfect_pickers` iff the sum of `points_earned` over that user's picks
for the week (within that team) is 4 and the number of those picks is 4;
moreover a user with 4 picks and only 3 hits is not a winner, and a user with
3 picks that all hit is not a winner. -/
theorem perfect_pickers_iff :
    (∀ (picks : List Pick) (u t : Nat),
      (u, t) ∈ getPerfectPickers picks ↔
        userScoreSum picks u t = 4 ∧ userPickCount picks u t = 4) ∧
    (∀ (picks : List Pick) (u t : Nat),
      userPickCount picks u t = 4 → userScoreSum picks u t = 3 →
        (u, t) ∉ getPerfectPickers picks) ∧
    (∀ (picks : List Pick) (u t : Nat),
      userPickCount picks u t = 3 → userScoreSum picks u t = 3 →
        (u, t) ∉ getPerfectPickers picks) := by
  have main : ∀ (picks : List Pick) (u t : Nat),
      (u, t) ∈ getPerfectPickers picks ↔
        userScoreSum picks u t = 4 ∧ userPickCount picks u t = 4 := by
    intro picks u t
    constructor
    · intro h
      have h' := List.of_mem_filter h
      simp only [Bool.and_eq_true, beq_iff_eq] at h'
      exact h'
    · rintro ⟨hs, hc⟩
      have hmem : (u, t) ∈ userTeamPairs picks := by
        have hpos : 0 < (picks.filter fun p => p.user == u && p.team == t).length := by
          rw [userPickCount] at hc
          omega
        obtain ⟨p, hp⟩ := List.exists_mem_of_length_pos hpos
        have hpicks : p ∈ picks := List.mem_of_mem_filter hp
        have hut := List.of_mem_filter hp
        simp only [Bool.and_eq_true, beq_iff_eq] at hut
        unfold userTeamPairs
        rw [List.mem_dedup, List.mem_map]
        exact ⟨p, hpicks, by rw [hut.1, hut.2]⟩
      refine List.mem_filter.mpr ⟨hmem, ?_⟩
      simp only [Bool.and_eq_true, beq_iff_eq]
      exact ⟨hs, hc⟩
  refine ⟨main, ?_, ?_⟩
  · intro picks u t hc hs h
    have := (main picks u t).mp h
    omega
  · intro picks u t hc hs h
    have := (main picks u t).mp h
    omega

/-- Witness for C1 at concrete inputs: with four hit picks the pair wins;
with 4 picks / 3 hits it does not; with 3 picks all hit it does not. -/
theorem perfect_pickers_iff_witness :
    (let w : WeekT := ⟨1, 2026⟩
     let mk : Nat → Nat → Pick := fun cat pts =>
       ⟨1, 1, w, cat, "2H", "hit", pts, ""⟩
     let four : List Pick := [mk 1 1, mk 2 1, mk 3 1, mk 4 1]
     let threeOfFour : List Pick := [mk 1 1, mk 2 1, mk 3 1, mk 4 0]
     let threePicks : List Pick := [mk 1 1, mk 2 1, mk 3 1]
     (1, 1) ∈ getPerfectPickers four ∧
     (1, 1) ∉ getPerfectPickers threeOfFour ∧
     (1, 1) ∉ getPerfectPickers threePicks) := by
  refine ⟨?_, ?_, ?_⟩
  · exact (perfect_pickers_iff.1 _ 1 1).mpr (by decide)
  · exact perfect_pickers_iff.2.1 _ 1 1 (by decide) (by decide)
  · exact perfect_pickers_iff.2.2 _ 1 1 (by decide) (by decide)

/-- **C2.** With at least one winner, `calculate_payouts` computes a single
`payout_per_winner` equal to the sum over *all* of the week's prize pools of
`weekly_pool_amount` plus the sum of `rollover_from_previous`, divided by the
system-wide number of winners; and every pool of the week is stored back with
this shared payout, its own team's winner count in `num_perfect_picks`,
`is_scored = true`, and `rollover_from_previous = 0`. -/
theorem calculate_payouts_spec (table : List PrizePool) (w : WeekT)
    (winners : List (Nat × Nat)) (hw : 0 < winners.length) :
    (calculatePayouts table w winners).2.1 =
      (((table.filter (fun p => p.week == w)).map PrizePool.weeklyPoolAmount).sum +
        ((table.filter (fun p => p.week == w)).map PrizePool.rolloverFromPrevious).sum) /
        (winners.length : ℚ) ∧
    ∀ p ∈ table, p.week = w →
      { p with numPerfectPicks := teamWinnerCount winners p.team
               payoutPerWinner := (calculatePayouts table w winners).2.1
               isScored := true
               rolloverFromPrevious := 0 } ∈ (calculatePayouts table w winners).1 := by
  by_cases hempty : (table.filter (fun p => p.week == w)).isEmpty
  · have hnil : table.filter (fun p => p.week == w) = [] :=
      List.isEmpty_iff.mp hempty
    constructor
    · simp [calculatePayouts, hempty, hnil]
    · intro p hp hpw
      exfalso
      have : p ∈ table.filter (fun p => p.week == w) :=
        List.mem_filter.mpr ⟨hp, by simp [hpw]⟩
      rw [hnil] at this
      exact absurd this (List.not_mem_nil p)
  · have hlen : winners.length > 0 := hw
    constructor
    · simp [calculatePayouts, hempty, hlen]
    · intro p hp hpw
      have htab : (calculatePayouts table w winners).1 =
          table.map fun p =>
            if p.week == w then
              { p with numPerfectPicks := teamWinnerCount winners p.team
                       payoutPerWinner := (calculatePayouts table w winners).2.1
                       isScored := true
                       rolloverFromPrevious := 0 }
            else p := by
        simp [calculatePayouts, hempty, hlen]
      rw [htab]
      refine List.mem_map.mpr ⟨p, hp, ?_⟩
      simp [hpw]

/-- Witness for C2: two teams' pools with $40 weekly each and $10 rollover
each, two winners system-wide; the shared payout is $(80+20)/2 = $50 and team
1's updated pool row is in the result. -/
theorem calculate_payouts_spec_witness :
    (calculatePayouts
        [⟨1, ⟨1, 2026⟩, 50, 10, 40, 5, 5, 0, 0, false⟩,
         ⟨2, ⟨1, 2026⟩, 50, 10, 40, 5, 5, 0, 0, false⟩]
        ⟨1, 2026⟩ [(7, 1), (8, 2)]).2.1 = 50 ∧
    (⟨1, ⟨1, 2026⟩, 50, 0, 40, 5, 5, 1, 50, true⟩ : PrizePool) ∈
      (calculatePayouts
        [⟨1, ⟨1, 2026⟩, 50, 10, 40, 5, 5, 0, 0, false⟩,
         ⟨2, ⟨1, 2026⟩, 50, 10, 40, 5, 5, 0, 0, false⟩]
        ⟨1, 2026⟩ [(7, 1), (8, 2)]).1 := by
  have h := calculate_payouts_spec
    [⟨1, ⟨1, 2026⟩, 50, 10, 40, 5, 5, 0, 0, false⟩,
     ⟨2, ⟨1, 2026⟩, 50, 10, 40, 5, 5, 0, 0, false⟩]
    ⟨1, 2026⟩ [(7, 1), (8, 2)] (by decide)
  have h50 : (calculatePayouts
      [⟨1, ⟨1, 2026⟩, 50, 10, 40, 5, 5, 0, 0, false⟩,
       ⟨2, ⟨1, 2026⟩, 50, 10, 40, 5, 5, 0, 0, false⟩]
      ⟨1, 2026⟩ [(7, 1), (8, 2)]).2.1 = 50 := by
    rw [h.1]; norm_num
  refine ⟨h50, ?_⟩
  have hm := h.2 ⟨1, ⟨1, 2026⟩, 50, 10, 40, 5, 5, 0, 0, false⟩ (by norm_num) rfl
  rw [h50] at hm
  simpa [teamWinnerCount] using hm

/-- **C9.** `deduct_from_balance`: debiting more than the current balance
returns `none` and leaves the profile and transaction log unchanged; debiting
at most the balance deducts exactly the amount and appends one completed
`payment` transaction whose `balance_before`/`balance_after` bracket the
deduction. -/
theorem deduct_from_balance_spec (userId : Nat) (profile : Profile)
    (txns : List AccountTransaction) (amount : ℚ) (description : String) :
    (profile.accountBalance < amount →
      deductFromBalance userId profile txns amount description = (none, profile, txns)) ∧
    (amount ≤ profile.accountBalance →
      (deductFromBalance userId profile txns amount description).2.1.accountBalance =
        profile.accountBalance - amount ∧
      (deductFromBalance userId profile txns amount description).1 =
        some { user := userId
               transactionType := "payment"
               amount := amount
               balanceBefore := profile.accountBalance
               balanceAfter := profile.accountBalance - amount
               status := "completed"
               description := description } ∧
      (deductFromBalance userId profile txns amount description).2.2 =
        txns ++ [{ user := userId
                   transactionType := "payment"
                   amount := amount
                   balanceBefore := profile.accountBalance
                   balanceAfter := profile.accountBalance - amount
                   status := "completed"
                   description := description }]) := by
  constructor
  · intro h
    unfold deductFromBalance
    rw [if_pos h]
  · intro h
    unfold deductFromBalance
    rw [if_neg (not_lt.mpr h)]
    refine ⟨?_, ?_, ?_⟩
    · dsimp only
      split <;> rfl
    · rfl
    · rfl

/-- Witness for C9: with a $10 balance, debiting $20 fails and changes
nothing; debiting $10 succeeds, leaving a $0 balance and one payment
transaction from $10 to $0. -/
theorem deduct_from_balance_spec_witness :
    deductFromBalance 1 ⟨10, 15, false⟩ [] 20 "d" = (none, ⟨10, 15, false⟩, []) ∧
    (deductFromBalance 1 ⟨10, 15, false⟩ [] 10 "d").2.1.accountBalance = 0 ∧
    (deductFromBalance 1 ⟨10, 15, false⟩ [] 10 "d").2.2 =
      [{ user := 1, transactionType := "payment", amount := 10, balanceBefore := 10,
         balanceAfter := 0, status := "completed", description := "d" }] := by
  have h20 := (deduct_from_balance_spec 1 ⟨10, 15, false⟩ [] 20 "d").1 (by norm_num)
  have h10 := (deduct_from_balance_spec 1 ⟨10, 15, false⟩ [] 10 "d").2 (by norm_num)
  refine ⟨h20, ?_, ?_⟩
  · rw [h10.1]; norm_num
  · rw [h10.2.2]; norm_num

/-! ### Helper lemmas about the pool table -/

theorem poolMatches_of_preserves {f : PrizePool → PrizePool} (hf : PreservesPoolKey f)
    (t : Nat) (w : WeekT) (q : PrizePool) : poolMatches t w (f q) = poolMatches t w q := by
  unfold poolMatches
  rw [(hf q).1, (hf q).2]

theorem lookupPool_updatePool_self (tb : List PrizePool) (t : Nat) (w : WeekT)
    {f : PrizePool → PrizePool} (hf : PreservesPoolKey f) :
    lookupPool (updatePool tb t w f) t w = (lookupPool tb t w).map f := by
  induction tb with
  | nil => rfl
  | cons q tb ih =>
    show lookupPool ((if poolMatches t w q then f q else q) :: updatePool tb t w f) t w = _
    by_cases hq : poolMatches t w q
    · rw [if_pos hq]
      unfold lookupPool
      rw [List.find?_cons_of_pos _ (by rw [poolMatches_of_preserves hf]; exact hq),
          List.find?_cons_of_pos _ hq]
      rfl
    · rw [if_neg hq]
      unfold lookupPool
      rw [List.find?_cons_of_neg _ hq, List.find?_cons_of_neg _ hq]
      exact ih

theorem lookupPool_updatePool_ne (tb : List PrizePool) (t : Nat) (w : WeekT)
    {f : PrizePool → PrizePool} (hf : PreservesPoolKey f)
    (t' : Nat) (w' : WeekT) (hne : ¬(t' = t ∧ w' = w)) :
    lookupPool (updatePool tb t w f) t' w' = lookupPool tb t' w' := by
  induction tb with
  | nil => rfl
  | cons q tb ih =>
    show lookupPool ((if poolMatches t w q then f q else q) :: updatePool tb t w f) t' w' = _
    by_cases hq : poolMatches t w q
    · have hq' : ¬ poolMatches t' w' q = true := by
        intro hq'
        unfold poolMatches at hq hq'
        simp only [Bool.and_eq_true, beq_iff_eq] at hq hq'
        exact hne ⟨hq'.1 ▸ hq.1 ▸ rfl, hq'.2 ▸ hq.2 ▸ rfl⟩
      rw [if_pos hq]
      unfold lookupPool
      rw [List.find?_cons_of_neg _ (by rw [poolMatches_of_preserves hf]; exact hq'),
          List.find?_cons_of_neg _ hq']
      exact ih
    · rw [if_neg hq]
      by_cases hq' : poolMatches t' w' q
      · unfold lookupPool
        rw [List.find?_cons_of_pos _ hq', List.find?_cons_of_pos _ hq']
      · unfold lookupPool
        rw [List.find?_cons_of_neg _ hq', List.find?_cons_of_neg _ hq']
        exact ih

theorem lookupPool_append (tb l2 : List PrizePool) (t : Nat) (w : WeekT) :
    lookupPool (tb ++ l2) t w = (lookupPool tb t w).or (lookupPool l2 t w) := by
  unfold lookupPool
  exact List.find?_append

theorem lookupPool_of_nodup (tb : List PrizePool)
    (hkeys : (tb.map fun p => (p.team, p.week)).Nodup) {p : PrizePool} (hp : p ∈ tb) :
    lookupPool tb p.team p.week = some p := by
  induction tb with
  | nil => cases hp
  | cons q tb ih =>
    rw [List.map_cons, List.nodup_cons] at hkeys
    rcases List.mem_cons.mp hp with rfl | hp'
    · exact List.find?_cons_of_pos _ (by simp [poolMatches])
    · have hq : ¬ poolMatches p.team p.week q = true := by
        intro hq
        unfold poolMatches at hq
        simp only [Bool.and_eq_true, beq_iff_eq] at hq
        exact hkeys.1 (by
          rw [hq.1, hq.2]
          exact List.mem_map_of_mem _ hp')
      unfold lookupPool
      rw [List.find?_cons_of_neg _ hq]
      exact ih hkeys.2 hp'

theorem preserves_scoreNoWinner (a : ℚ) (b : Bool) : PreservesPoolKey (scoreNoWinner a b) :=
  fun _ => ⟨rfl, rfl⟩

theorem preserves_rolloverInc (a : ℚ) :
    PreservesPoolKey (fun np => { np with rolloverFromPrevious := np.rolloverFromPrevious + a }) :=
  fun _ => ⟨rfl, rfl⟩

theorem nextWeek_ne {weeks : List WeekT} {w nw : WeekT} (h : nextWeek weeks w = some nw) :
    nw ≠ w := by
  have hpred := List.find?_some h
  simp only [Bool.and_eq_true, beq_iff_eq] at hpred
  intro he
  rw [he] at hpred
  omega

theorem rolloverStep_lookup_other (weeks : List WeekT) (w : WeekT)
    (acc : List PrizePool × ℚ) (q : PrizePool) (t : Nat) (wq : WeekT) (ht : q.team ≠ t) :
    lookupPool (rolloverStep weeks w acc q).1 t wq = lookupPool acc.1 t wq := by
  unfold rolloverStep
  cases hnw : nextWeek weeks w with
  | none =>
    exact lookupPool_updatePool_ne _ _ _ (preserves_scoreNoWinner _ _) _ _
      (fun hc => ht hc.1.symm)
  | some nw =>
    dsimp only
    cases hfind : lookupPool acc.1 q.team nw with
    | some np =>
      rw [lookupPool_updatePool_ne _ _ _ (preserves_scoreNoWinner _ _) _ _
            (fun hc => ht hc.1.symm),
          lookupPool_updatePool_ne _ _ _ (preserves_rolloverInc _) _ _
            (fun hc => ht hc.1.symm)]
    | none =>
      rw [lookupPool_updatePool_ne _ _ _ (preserves_scoreNoWinner _ _) _ _
            (fun hc => ht hc.1.symm),
          lookupPool_append]
      have hsingle : lookupPool [newRolloverPool q.team nw
          (q.weeklyPoolAmount + q.rolloverFromPrevious)] t wq = none := by
        unfold lookupPool
        rw [List.find?_cons_of_neg, List.find?_nil]
        unfold poolMatches newRolloverPool
        simp only [Bool.and_eq_true, beq_iff_eq, not_and]
        intro hteam
        exact absurd hteam ht
      rw [hsingle, Option.or_none]

theorem foldl_rollover_untouched (weeks : List WeekT) (w : WeekT) (l : List PrizePool) :
    ∀ (acc : List PrizePool × ℚ) (t : Nat) (wq : WeekT),
      (∀ q ∈ l, q.team ≠ t) →
      lookupPool ((l.foldl (rolloverStep weeks w) acc).1) t wq = lookupPool acc.1 t wq := by
  induction l with
  | nil => intro acc t wq _; rfl
  | cons q l ih =>
    intro acc t wq hne
    rw [List.foldl_cons]
    exact (ih _ t wq (fun r hr => hne r (List.mem_cons_of_mem q hr))).trans
      (rolloverStep_lookup_other weeks w acc q t wq (hne q (List.mem_cons_self q l)))

theorem rolloverStep_none_spec (weeks : List WeekT) (w : WeekT)
    (acc : List PrizePool × ℚ) (p : PrizePool) (hnw : nextWeek weeks w = none)
    (hp : lookupPool acc.1 p.team w = some p) :
    lookupPool (rolloverStep weeks w acc p).1 p.team w =
      some (scoreNoWinner (p.weeklyPoolAmount + p.rolloverFromPrevious) true p) := by
  unfold rolloverStep
  rw [hnw]
  dsimp only
  rw [lookupPool_updatePool_self _ _ _ (preserves_scoreNoWinner _ _), hp]
  rfl

theorem rolloverStep_some_spec (weeks : List WeekT) (w : WeekT)
    (acc : List PrizePool × ℚ) (p : PrizePool) (nw : WeekT)
    (hnw : nextWeek weeks w = some nw)
    (hp : lookupPool acc.1 p.team w = some p) :
    lookupPool (rolloverStep weeks w acc p).1 p.team w =
      some (scoreNoWinner (p.weeklyPoolAmount + p.rolloverFromPrevious) false p) ∧
    lookupPool (rolloverStep weeks w acc p).1 p.team nw =
      some (match lookupPool acc.1 p.team nw with
            | some np => { np with rolloverFromPrevious :=
                np.rolloverFromPrevious + (p.weeklyPoolAmount + p.rolloverFromPrevious) }
            | none => newRolloverPool p.team nw
                (p.weeklyPoolAmount + p.rolloverFromPrevious)) := by
  have hwnw : ¬ w = nw := fun hc => nextWeek_ne hnw hc.symm
  have hnww : ¬ nw = w := nextWeek_ne hnw
  unfold rolloverStep
  rw [hnw]
  dsimp only
  cases hfind : lookupPool acc.1 p.team nw with
  | some np =>
    constructor
    · rw [lookupPool_updatePool_self _ _ _ (preserves_scoreNoWinner _ _),
          lookupPool_updatePool_ne _ _ _ (preserves_rolloverInc _) _ _
            (fun hc => hwnw hc.2),
          hp]
      rfl
    · rw [lookupPool_updatePool_ne _ _ _ (preserves_scoreNoWinner _ _) _ _
            (fun hc => hnww hc.2),
          lookupPool_updatePool_self _ _ _ (preserves_rolloverInc _),
          hfind]
      rfl
  | none =>
    constructor
    · rw [lookupPool_updatePool_self _ _ _ (preserves_scoreNoWinner _ _),
          lookupPool_append, hp]
      rfl
    · rw [lookupPool_updatePool_ne _ _ _ (preserves_scoreNoWinner _ _) _ _
            (fun hc => hnww hc.2),
          lookupPool_append, hfind]
      rw [Option.none_or]
      unfold lookupPool
      rw [List.find?_cons_of_pos _ (by simp [poolMatches, newRolloverPool])]

/-- **C4.** When a week has zero winners, `handle_rollover` moves each of the
week's pools' `weekly_pool_amount + rollover_from_previous`: when a next week
exists in the same season, it is added to that week's pool's
`rollover_from_previous` (the pool row is created with exactly that rollover
when absent); when no next week exists, it is added to the current pool's own
`season_pot_contribution`.  Either way the current pool ends with
`rollover_from_previous = 0`, `num_perfect_picks = 0`,
`payout_per_winner = 0`, and `is_scored = true` (this is `scoreNoWinner`). -/
theorem handle_rollover_spec (weeks : List WeekT) (w : WeekT) (table : List PrizePool)
    (hkeys : (table.map fun p => (p.team, p.week)).Nodup)
    (p : PrizePool) (hp : p ∈ table) (hpw : p.week = w) :
    (nextWeek weeks w = none →
      lookupPool (handleRollover weeks w table).1 p.team w =
        some (scoreNoWinner (p.weeklyPoolAmount + p.rolloverFromPrevious) true p)) ∧
    (∀ nw, nextWeek weeks w = some nw →
      lookupPool (handleRollover weeks w table).1 p.team w =
        some (scoreNoWinner (p.weeklyPoolAmount + p.rolloverFromPrevious) false p) ∧
      lookupPool (handleRollover weeks w table).1 p.team nw =
        some (match lookupPool table p.team nw with
              | some np => { np with rolloverFromPrevious :=
                  np.rolloverFromPrevious + (p.weeklyPoolAmount + p.rolloverFromPrevious) }
              | none => newRolloverPool p.team nw
                  (p.weeklyPoolAmount + p.rolloverFromPrevious))) := by
  set cur := table.filter (fun q => q.week == w) with hcurdef
  have hpcur : p ∈ cur := List.mem_filter.mpr ⟨hp, by simp [hpw]⟩
  have hcurweek : ∀ q ∈ cur, q.week = w := by
    intro q hq
    have := List.of_mem_filter hq
    simpa using this
  have hcurkeys : (cur.map fun q => (q.team, q.week)).Nodup :=
    ((List.filter_sublist table).map _).nodup hkeys
  obtain ⟨l₁, l₂, hcur⟩ := List.append_of_mem hpcur
  have hteam : (∀ q ∈ l₁, q.team ≠ p.team) ∧ (∀ q ∈ l₂, q.team ≠ p.team) := by
    rw [hcur, List.map_append, List.map_cons] at hcurkeys
    rw [List.nodup_append] at hcurkeys
    obtain ⟨h1, h2, hdisj⟩ := hcurkeys
    constructor
    · intro q hq hteam
      have hqw : q.week = w := hcurweek q (by rw [hcur]; exact List.mem_append_left _ hq)
      have hkey : ((fun q : PrizePool => (q.team, q.week)) q) = (p.team, p.week) := by
        simp [hteam, hqw, hpw]
      exact hdisj (hkey ▸ List.mem_map_of_mem _ hq) (List.mem_cons_self _ _)
    · intro q hq hteam
      have hqw : q.week = w := hcurweek q
        (by rw [hcur]; exact List.mem_append_right _ (List.mem_cons_of_mem _ hq))
      rw [List.nodup_cons] at h2
      have hkey : ((fun q : PrizePool => (q.team, q.week)) q) = (p.team, p.week) := by
        simp [hteam, hqw, hpw]
      exact h2.1 (hkey ▸ List.mem_map_of_mem _ hq)
  have hfold : handleRollover weeks w table =
      l₂.foldl (rolloverStep weeks w)
        (rolloverStep weeks w (l₁.foldl (rolloverStep weeks w) (table, 0)) p) := by
    rw [handleRollover, ← hcurdef, hcur, List.foldl_append, List.foldl_cons]
  have hpre : ∀ wq : WeekT,
      lookupPool (l₁.foldl (rolloverStep weeks w) (table, 0)).1 p.team wq =
        lookupPool table p.team wq :=
    fun wq => foldl_rollover_untouched weeks w l₁ (table, 0) p.team wq
      (fun q hq => hteam.1 q hq)
  have hpself : lookupPool (l₁.foldl (rolloverStep weeks w) (table, 0)).1 p.team w =
      some p := by
    rw [hpre w, ← hpw]
    exact lookupPool_of_nodup table hkeys hp
  constructor
  · intro hnw
    rw [hfold,
        foldl_rollover_untouched weeks w l₂ _ p.team w (fun q hq => hteam.2 q hq)]
    exact rolloverStep_none_spec weeks w _ p hnw hpself
  · intro nw hnw
    have hstep := rolloverStep_some_spec weeks w
      (l₁.foldl (rolloverStep weeks w) (table, 0)) p nw hnw hpself
    constructor
    · rw [hfold,
          foldl_rollover_untouched weeks w l₂ _ p.team w (fun q hq => hteam.2 q hq)]
      exact hstep.1
    · rw [hfold,
          foldl_rollover_untouched weeks w l₂ _ p.team nw (fun q hq => hteam.2 q hq)]
      rw [hstep.2, hpre nw]

/-- Witness for C4 (the spec's own example): a single pool with
`weekly_pool_amount = 80, rollover_from_previous = 20` and a following week:
the next week's pool is created with `rollover_from_previous = 100`, and the
current pool ends with rollover 0, no perfect picks, zero payout, scored. -/
theorem handle_rollover_spec_witness :
    lookupPool (handleRollover [⟨1, 2026⟩, ⟨2, 2026⟩] ⟨1, 2026⟩
        [⟨1, ⟨1, 2026⟩, 125, 20, 80, 12 + 1/2, 12 + 1/2, 0, 0, false⟩]).1 1 ⟨2, 2026⟩ =
      some ⟨1, ⟨2, 2026⟩, 0, 100, 0, 0, 0, 0, 0, false⟩ ∧
    lookupPool (handleRollover [⟨1, 2026⟩, ⟨2, 2026⟩] ⟨1, 2026⟩
        [⟨1, ⟨1, 2026⟩, 125, 20, 80, 12 + 1/2, 12 + 1/2, 0, 0, false⟩]).1 1 ⟨1, 2026⟩ =
      some ⟨1, ⟨1, 2026⟩, 125, 0, 80, 12 + 1/2, 12 + 1/2, 0, 0, true⟩ := by
  have h := handle_rollover_spec [⟨1, 2026⟩, ⟨2, 2026⟩] ⟨1, 2026⟩
    [⟨1, ⟨1, 2026⟩, 125, 20, 80, 12 + 1/2, 12 + 1/2, 0, 0, false⟩]
    (by simp) ⟨1, ⟨1, 2026⟩, 125, 20, 80, 12 + 1/2, 12 + 1/2, 0, 0, false⟩
    (List.mem_singleton.mpr rfl) rfl
  have hsome := h.2 ⟨2, 2026⟩ (by rfl)
  constructor
  · rw [hsome.2]
    norm_num [lookupPool, poolMatches, newRolloverPool]
  · rw [hsome.1]
    norm_num [scoreNoWinner]

/-! ### Invariant-preservation lemmas for C5 -/

theorem updatePool_inv {tb : List PrizePool} {t : Nat} {w : WeekT} {f : PrizePool → PrizePool}
    (hf : ∀ s, PoolInvariant s → PoolInvariant (f s))
    (hinv : ∀ s ∈ tb, PoolInvariant s) : ∀ r ∈ updatePool tb t w f, PoolInvariant r := by
  intro r hr
  obtain ⟨s, hs, heq⟩ := List.mem_map.mp hr
  rw [← heq]
  by_cases h : poolMatches t w s
  · rw [if_pos h]
    exact hf s (hinv s hs)
  · rw [if_neg h]
    exact hinv s hs

theorem scoreNoWinner_false_inv (a : ℚ) (s : PrizePool) (h : PoolInvariant s) :
    PoolInvariant (scoreNoWinner a false s) := by
  unfold PoolInvariant scoreNoWinner at *
  simpa using h

theorem rolloverInc_inv (a : ℚ) (s : PrizePool) (h : PoolInvariant s) :
    PoolInvariant { s with rolloverFromPrevious := s.rolloverFromPrevious + a } := h

theorem newRolloverPool_inv (t : Nat) (w : WeekT) (a : ℚ) :
    PoolInvariant (newRolloverPool t w a) := by
  unfold PoolInvariant newRolloverPool
  norm_num

theorem rolloverStep_inv (weeks : List WeekT) (w nw : WeekT)
    (hnw : nextWeek weeks w = some nw) (acc : List PrizePool × ℚ) (q : PrizePool)
    (hinv : ∀ r ∈ acc.1, PoolInvariant r) :
    ∀ r ∈ (rolloverStep weeks w acc q).1, PoolInvariant r := by
  unfold rolloverStep
  rw [hnw]
  dsimp only
  cases hfind : lookupPool acc.1 q.team nw with
  | some np =>
    exact updatePool_inv (scoreNoWinner_false_inv _)
      (updatePool_inv (rolloverInc_inv _) hinv)
  | none =>
    refine updatePool_inv (scoreNoWinner_false_inv _) ?_
    intro r hr
    rcases List.mem_append.mp hr with hr' | hr'
    · exact hinv r hr'
    · rw [List.mem_singleton.mp hr']
      exact newRolloverPool_inv _ _ _

theorem foldl_rollover_inv (weeks : List WeekT) (w nw : WeekT)
    (hnw : nextWeek weeks w = some nw) (l : List PrizePool) :
    ∀ acc : List PrizePool × ℚ, (∀ r ∈ acc.1, PoolInvariant r) →
      ∀ r ∈ ((l.foldl (rolloverStep weeks w) acc).1), PoolInvariant r := by
  induction l with
  | nil => intro acc h; exact h
  | cons q l ih =>
    intro acc h
    rw [List.foldl_cons]
    exact ih _ (rolloverStep_inv weeks w nw hnw acc q h)

/-- **C5 (amended).** The 80/10/10 invariant
`weekly_pool_amount + season_pot_contribution + company_fee = total_collected`
holds after every completed payment (whose amount is split exactly 0.8/0.1/0.1
with the full amount added to `total_collected`), is preserved on every pool
by `calculate_payouts`, and is preserved by `handle_rollover` whenever a next
week exists.  (The season-end branch of `handle_rollover` breaks it — see the
counterexample.) -/
theorem pool_invariant_spec :
    (∀ (p : PrizePool) (a : ℚ),
      (applyPaymentToPool p a).weeklyPoolAmount - p.weeklyPoolAmount = a * (8/10 : ℚ) ∧
      (applyPaymentToPool p a).seasonPotContribution - p.seasonPotContribution = a * (1/10 : ℚ) ∧
      (applyPaymentToPool p a).companyFee - p.companyFee = a * (1/10 : ℚ) ∧
      (applyPaymentToPool p a).totalCollected - p.totalCollected = a ∧
      (PoolInvariant p → PoolInvariant (applyPaymentToPool p a))) ∧
    (∀ (table : List PrizePool) (t : Nat) (w : WeekT) (a : ℚ),
      (∀ r ∈ table, PoolInvariant r) →
      ∀ r ∈ handlePaymentSuccess table t w a, PoolInvariant r) ∧
    (∀ (table : List PrizePool) (w : WeekT) (winners : List (Nat × Nat)),
      (∀ r ∈ table, PoolInvariant r) →
      ∀ r ∈ (calculatePayouts table w winners).1, PoolInvariant r) ∧
    (∀ (weeks : List WeekT) (w nw : WeekT) (table : List PrizePool),
      nextWeek weeks w = some nw →
      (∀ r ∈ table, PoolInvariant r) →
      ∀ r ∈ (handleRollover weeks w table).1, PoolInvariant r) := by
  refine ⟨?_, ?_, ?_, ?_⟩
  · intro p a
    refine ⟨by simp [applyPaymentToPool], by simp [applyPaymentToPool],
            by simp [applyPaymentToPool], by simp [applyPaymentToPool], ?_⟩
    intro h
    unfold PoolInvariant applyPaymentToPool at *
    dsimp only
    rw [← h]
    ring
  · intro table t w a hinv
    unfold handlePaymentSuccess
    cases hfind : lookupPool table t w with
    | some q =>
      exact updatePool_inv (fun s hs => by
        unfold PoolInvariant applyPaymentToPool at *
        dsimp only
        rw [← hs]
        ring) hinv
    | none =>
      intro r hr
      rcases List.mem_append.mp hr with hr' | hr'
      · exact hinv r hr'
      · rw [List.mem_singleton.mp hr']
        unfold PoolInvariant applyPaymentToPool newRolloverPool
        dsimp only
        ring
  · intro table w winners hinv
    unfold calculatePayouts
    by_cases hempty : (table.filter (fun p => p.week == w)).isEmpty
    · rw [if_pos hempty]
      exact hinv
    · rw [if_neg hempty]
      dsimp only
      intro r hr
      obtain ⟨s, hs, heq⟩ := List.mem_map.mp hr
      rw [← heq]
      by_cases h : (s.week == w) = true
      · rw [if_pos h]
        exact hinv s hs
      · rw [if_neg h]
        exact hinv s hs
  · intro weeks w nw table hnw hinv
    exact foldl_rollover_inv weeks w nw hnw _ (table, 0) hinv

/-- Counterexample for C5 as originally stated: a pool satisfying the
invariant (`80 + 10 + 10 = 100`) with a $20 rollover and *no* following week
is sent by `handle_rollover` to a pool with `season_pot_contribution = 110`
and unchanged `total_collected = 100`, breaking the equality
(`80 + 110 + 10 ≠ 100`). -/
theorem pool_invariant_counterexample :
    PoolInvariant ⟨1, ⟨1, 2026⟩, 100, 20, 80, 10, 10, 0, 0, false⟩ ∧
    (handleRollover [⟨1, 2026⟩] ⟨1, 2026⟩
        [⟨1, ⟨1, 2026⟩, 100, 20, 80, 10, 10, 0, 0, false⟩]).1 =
      [⟨1, ⟨1, 2026⟩, 100, 0, 80, 110, 10, 0, 0, true⟩] ∧
    ¬ PoolInvariant ⟨1, ⟨1, 2026⟩, 100, 0, 80, 110, 10, 0, 0, true⟩ := by
  refine ⟨by norm_num [PoolInvariant], ?_, by norm_num [PoolInvariant]⟩
  have h1 : nextWeek [⟨1, 2026⟩] ⟨1, 2026⟩ = none := by decide
  have h2 : (List.filter (fun p => p.week == (⟨1, 2026⟩ : WeekT))
      [(⟨1, ⟨1, 2026⟩, 100, 20, 80, 10, 10, 0, 0, false⟩ : PrizePool)]) =
      [⟨1, ⟨1, 2026⟩, 100, 20, 80, 10, 10, 0, 0, false⟩] := by rfl
  unfold handleRollover
  rw [h2, List.foldl_cons, List.foldl_nil]
  unfold rolloverStep
  rw [h1]
  dsimp only
  unfold updatePool poolMatches scoreNoWinner
  simp only [List.map_cons, List.map_nil]
  norm_num

/-- Witness for C5's amended theorem at concrete inputs: a $5 payment keeps
the invariant; so do the pool-creating payment path, payout calculation, and
the rollover path when week 2 exists. -/
theorem pool_invariant_spec_witness :
    PoolInvariant (applyPaymentToPool ⟨1, ⟨1, 2026⟩, 100, 20, 80, 10, 10, 0, 0, false⟩ 5) ∧
    PoolInvariant (applyPaymentToPool (newRolloverPool 1 ⟨1, 2026⟩ 0) 5) ∧
    PoolInvariant (⟨1, ⟨1, 2026⟩, 100, 0, 80, 10, 10, 1, 100, true⟩ : PrizePool) ∧
    PoolInvariant (⟨1, ⟨1, 2026⟩, 100, 0, 80, 10, 10, 0, 0, true⟩ : PrizePool) := by
  have hPinv : PoolInvariant ⟨1, ⟨1, 2026⟩, 100, 20, 80, 10, 10, 0, 0, false⟩ := by
    norm_num [PoolInvariant]
  have hTinv : ∀ r ∈ [(⟨1, ⟨1, 2026⟩, 100, 20, 80, 10, 10, 0, 0, false⟩ : PrizePool)],
      PoolInvariant r := by
    intro r hr
    rw [List.mem_singleton.mp hr]
    exact hPinv
  refine ⟨?_, ?_, ?_, ?_⟩
  · exact (pool_invariant_spec.1 _ 5).2.2.2.2 hPinv
  · refine pool_invariant_spec.2.1 [] 1 ⟨1, 2026⟩ 5 (by intro r hr; cases hr) _ ?_
    simp [handlePaymentSuccess, lookupPool]
  · refine pool_invariant_spec.2.2.1
      [⟨1, ⟨1, 2026⟩, 100, 20, 80, 10, 10, 0, 0, false⟩] ⟨1, 2026⟩ [(7, 1)] hTinv _ ?_
    norm_num [calculatePayouts, teamWinnerCount]
  · refine pool_invariant_spec.2.2.2 [⟨1, 2026⟩, ⟨2, 2026⟩] ⟨1, 2026⟩ ⟨2, 2026⟩
      [⟨1, ⟨1, 2026⟩, 100, 20, 80, 10, 10, 0, 0, false⟩] (by decide) hTinv _ ?_
    have hcomp : (handleRollover [⟨1, 2026⟩, ⟨2, 2026⟩] ⟨1, 2026⟩
        [⟨1, ⟨1, 2026⟩, 100, 20, 80, 10, 10, 0, 0, false⟩]).1 =
        [⟨1, ⟨1, 2026⟩, 100, 0, 80, 10, 10, 0, 0, true⟩,
         ⟨1, ⟨2, 2026⟩, 0, 100, 0, 0, 0, 0, 0, false⟩] := by
      unfold handleRollover
      rw [show List.filter (fun p => p.week == (⟨1, 2026⟩ : WeekT))
            [(⟨1, ⟨1, 2026⟩, 100, 20, 80, 10, 10, 0, 0, false⟩ : PrizePool)] =
          [⟨1, ⟨1, 2026⟩, 100, 20, 80, 10, 10, 0, 0, false⟩] from rfl,
         List.foldl_cons, List.foldl_nil]
      unfold rolloverStep
      rw [show nextWeek [⟨1, 2026⟩, ⟨2, 2026⟩] ⟨1, 2026⟩ = some ⟨2, 2026⟩ from by decide]
      dsimp only
      rw [show lookupPool [(⟨1, ⟨1, 2026⟩, 100, 20, 80, 10, 10, 0, 0, false⟩ : PrizePool)]
            1 ⟨2, 2026⟩ = none from by decide]
      unfold updatePool poolMatches scoreNoWinner newRolloverPool
      simp only [List.map_append, List.map_cons, List.map_nil]
      norm_num
    rw [hcomp]
    exact List.mem_cons_self _ _

/-- Counterexample for C3 as stated: a week with two prize pools totalling
$100 and two winners.  `calculate_payouts` computes `payout_per_winner = 50`
but leaves every account balance untouched and creates no
`AccountTransaction` rows at all — the winners' balances increase by $0, not
$100, and zero deposit rows exist, not two. -/
theorem winner_payout_balances_counterexample :
    (calculatePayoutsState
        ⟨[⟨1, ⟨1, 2026⟩, 50, 10, 40, 5, 5, 0, 0, false⟩,
          ⟨2, ⟨1, 2026⟩, 50, 10, 40, 5, 5, 0, 0, false⟩],
         [], [(1, ⟨0, 15, false⟩), (2, ⟨0, 15, false⟩)], []⟩
        ⟨1, 2026⟩ [(1, 1), (2, 2)]).2.2.1 = 50 ∧
    (calculatePayoutsState
        ⟨[⟨1, ⟨1, 2026⟩, 50, 10, 40, 5, 5, 0, 0, false⟩,
          ⟨2, ⟨1, 2026⟩, 50, 10, 40, 5, 5, 0, 0, false⟩],
         [], [(1, ⟨0, 15, false⟩), (2, ⟨0, 15, false⟩)], []⟩
        ⟨1, 2026⟩ [(1, 1), (2, 2)]).1.profiles =
      [(1, ⟨0, 15, false⟩), (2, ⟨0, 15, false⟩)] ∧
    (calculatePayoutsState
        ⟨[⟨1, ⟨1, 2026⟩, 50, 10, 40, 5, 5, 0, 0, false⟩,
          ⟨2, ⟨1, 2026⟩, 50, 10, 40, 5, 5, 0, 0, false⟩],
         [], [(1, ⟨0, 15, false⟩), (2, ⟨0, 15, false⟩)], []⟩
        ⟨1, 2026⟩ [(1, 1), (2, 2)]).1.transactions = [] := by
  refine ⟨?_, rfl, rfl⟩
  norm_num [calculatePayoutsState, calculatePayouts]

/-- **C3 (amended).** `calculate_payouts` records one winner entry per winner
with `amount = payout_per_winner`, but performs no balance credit: user
profiles and the `AccountTransaction` log are returned unchanged (the code
only creates winner records "for future payout processing").  The
Balance/Ledger `add_to_balance` — which this code path never invokes — does
credit exactly `amount`, with one appended completed deposit transaction
whose `balance_after − balance_before` equals `amount`. -/
theorem winner_payouts_no_balance_credit (st : ServiceState) (w : WeekT)
    (winners : List (Nat × Nat)) :
    (calculatePayoutsState st w winners).1.profiles = st.profiles ∧
    (calculatePayoutsState st w winners).1.transactions = st.transactions ∧
    (∀ rec ∈ (calculatePayoutsState st w winners).2.1,
      rec.amount = (calculatePayoutsState st w winners).2.2.1) ∧
    (∀ (userId : Nat) (profile : Profile) (txns : List AccountTransaction)
        (amount : ℚ) (description : String),
      (addToBalance userId profile txns amount description).2.1.accountBalance =
        profile.accountBalance + amount ∧
      (addToBalance userId profile txns amount description).1.balanceAfter -
        (addToBalance userId profile txns amount description).1.balanceBefore = amount ∧
      (addToBalance userId profile txns amount description).1.transactionType = "deposit" ∧
      (addToBalance userId profile txns amount description).2.2 =
        txns ++ [(addToBalance userId profile txns amount description).1]) := by
  refine ⟨rfl, rfl, ?_, ?_⟩
  · intro rec hrec
    obtain ⟨ut, _, heq⟩ := List.mem_map.mp hrec
    rw [← heq]
    rfl
  · intro userId profile txns amount description
    refine ⟨rfl, ?_, rfl, rfl⟩
    show profile.accountBalance + amount - profile.accountBalance = amount
    ring

/-- Witness for C3's amended theorem: one pool of $80, one winner; the
profiles come back unchanged, the single winner record carries the payout,
and `add_to_balance` on a $5 profile with $80 yields an $85 balance. -/
theorem winner_payouts_no_balance_credit_witness :
    (calculatePayoutsState
        ⟨[⟨1, ⟨1, 2026⟩, 100, 0, 80, 10, 10, 0, 0, false⟩], [], [(1, ⟨5, 15, false⟩)], []⟩
        ⟨1, 2026⟩ [(1, 1)]).1.profiles = [(1, ⟨5, 15, false⟩)] ∧
    (⟨1, 1, 80, 1⟩ : WinnerRecord).amount =
      (calculatePayoutsState
        ⟨[⟨1, ⟨1, 2026⟩, 100, 0, 80, 10, 10, 0, 0, false⟩], [], [(1, ⟨5, 15, false⟩)], []⟩
        ⟨1, 2026⟩ [(1, 1)]).2.2.1 ∧
    (addToBalance 1 ⟨5, 15, false⟩ [] 80 "Winner").2.1.accountBalance = 5 + 80 := by
  have h := winner_payouts_no_balance_credit
    ⟨[⟨1, ⟨1, 2026⟩, 100, 0, 80, 10, 10, 0, 0, false⟩], [], [(1, ⟨5, 15, false⟩)], []⟩
    ⟨1, 2026⟩ [(1, 1)]
  refine ⟨h.1, ?_, (h.2.2.2 1 ⟨5, 15, false⟩ [] 80 "Winner").1⟩
  refine h.2.2.1 ⟨1, 1, 80, 1⟩ ?_
  norm_num [calculatePayoutsState, calculatePayouts, WinnerRecord.mk.injEq]

/-- **C6.** Evaluating the code at the failing input: a week with one
perfect picker and a pool with $80 weekly plus $20 rollover.  The first
winner-determination run marks the pool scored with `payout_per_winner=100`
and a standing of $100 winnings.  Re-running on the already-`is_scored`
state (same picks) re-increments the standing (8 points, 2 perfect weeks,
$180 winnings) and stores a different `payout_per_winner` of $80 — so state
after the second run differs from the first, i.e. the run double-pays. -/
theorem winner_rerun_double_pay :
    (determineWeeklyWinners [⟨1, 2026⟩] ⟨1, 2026⟩
        [⟨1, 1, ⟨1, 2026⟩, 10, "2H", "hit", 1, ""⟩,
         ⟨1, 1, ⟨1, 2026⟩, 11, "HR", "hit", 1, ""⟩,
         ⟨1, 1, ⟨1, 2026⟩, 12, "SWP", "hit", 1, ""⟩,
         ⟨1, 1, ⟨1, 2026⟩, 13, "S", "hit", 1, ""⟩]
        ⟨[⟨1, ⟨1, 2026⟩, 100, 20, 80, 10, 10, 0, 0, false⟩], [], [], []⟩).1 =
      ⟨[⟨1, ⟨1, 2026⟩, 100, 0, 80, 10, 10, 1, 100, true⟩],
       [⟨1, 1, 2026, 4, 4, 4, 100, 1, 1, 4, 1, 1, 100⟩], [], []⟩ ∧
    (determineWeeklyWinners [⟨1, 2026⟩] ⟨1, 2026⟩
        [⟨1, 1, ⟨1, 2026⟩, 10, "2H", "hit", 1, ""⟩,
         ⟨1, 1, ⟨1, 2026⟩, 11, "HR", "hit", 1, ""⟩,
         ⟨1, 1, ⟨1, 2026⟩, 12, "SWP", "hit", 1, ""⟩,
         ⟨1, 1, ⟨1, 2026⟩, 13, "S", "hit", 1, ""⟩]
        ⟨[⟨1, ⟨1, 2026⟩, 100, 0, 80, 10, 10, 1, 100, true⟩],
         [⟨1, 1, 2026, 4, 4, 4, 100, 1, 1, 4, 1, 1, 100⟩], [], []⟩).1 =
      ⟨[⟨1, ⟨1, 2026⟩, 100, 0, 80, 10, 10, 1, 80, true⟩],
       [⟨1, 1, 2026, 8, 8, 8, 100, 2, 2, 4, 2, 2, 180⟩], [], []⟩ ∧
    ([⟨1, 1, 2026, 8, 8, 8, 100, 2, 2, 4, 2, 2, 180⟩] : List UserStanding) ≠
      [⟨1, 1, 2026, 4, 4, 4, 100, 1, 1, 4, 1, 1, 100⟩] ∧
    ([⟨1, ⟨1, 2026⟩, 100, 0, 80, 10, 10, 1, 80, true⟩] : List PrizePool) ≠
      [⟨1, ⟨1, 2026⟩, 100, 0, 80, 10, 10, 1, 100, true⟩] := by
  have hperf : getPerfectPickers (List.filter
      (fun p => p.week == (⟨1, 2026⟩ : WeekT))
      [⟨1, 1, ⟨1, 2026⟩, 10, "2H", "hit", 1, ""⟩,
       ⟨1, 1, ⟨1, 2026⟩, 11, "HR", "hit", 1, ""⟩,
       ⟨1, 1, ⟨1, 2026⟩, 12, "SWP", "hit", 1, ""⟩,
       ⟨1, 1, ⟨1, 2026⟩, 13, "S", "hit", 1, ""⟩]) = [(1, 1)] := by decide
  have hperfBare : getPerfectPickers
      [(⟨1, 1, ⟨1, 2026⟩, 10, "2H", "hit", 1, ""⟩ : Pick),
       ⟨1, 1, ⟨1, 2026⟩, 11, "HR", "hit", 1, ""⟩,
       ⟨1, 1, ⟨1, 2026⟩, 12, "SWP", "hit", 1, ""⟩,
       ⟨1, 1, ⟨1, 2026⟩, 13, "S", "hit", 1, ""⟩] = [(1, 1)] := by decide
  refine ⟨?_, ?_, by decide, by decide⟩
  · norm_num [determineWeeklyWinners, hperf, hperfBare, calculatePayoutsState,
      calculatePayouts, teamWinnerCount, updateUserStandings, standingMatches,
      applyStandingUpdate, updateAccuracy, defaultStanding]
  · norm_num [determineWeeklyWinners, hperf, hperfBare, calculatePayoutsState,
      calculatePayouts, teamWinnerCount, updateUserStandings, standingMatches,
      applyStandingUpdate, updateAccuracy, defaultStanding]

/-- Counterexample for C7 as stated: the v1 service — the one the scoring
engine invokes to create the category-keyed `WeeklyResult` rows — processes
every game whose status is `Final`, including the second game of a
doubleheader and a makeup game of an earlier postponement, so their player
stats do contribute to `WeeklyResult` rows. -/
theorem game_filtering_counterexample :
    v1ProcessesGame ⟨7, "Final", 2, false, false, some 613⟩ = true ∧
    (⟨7, "Final", 2, false, false, some 613⟩ : Game).gameNumber = 2 ∧
    v1ProcessesGame ⟨8, "Final", 1, true, false, some 606⟩ = true ∧
    isOriginallyScheduled ⟨8, "Final", 1, true, false, some 606⟩ 613 = false := by
  decide

/-- **C7 (amended).** The v2 ingestion service performs all three filters:
every game it selects is in the schedule, is not
Postponed/Cancelled/Suspended, is not the second game of a doubleheader, and
was originally scheduled for the target Saturday.  The v1 service (the one
wired into the scoring engine) processes exactly the games whose status is
`Final` — which does exclude Postponed/Cancelled/Suspended games but not
doubleheader game 2 or makeup games. -/
theorem game_filtering_spec :
    (∀ (schedule : List Game) (saturday : Nat) (g : Game),
      g ∈ validGames schedule saturday true →
        g ∈ schedule ∧
        g.status ≠ "Postponed" ∧ g.status ≠ "Cancelled" ∧ g.status ≠ "Suspended" ∧
        g.gameNumber ≠ 2 ∧ isOriginallyScheduled g saturday = true) ∧
    (∀ g : Game, v1ProcessesGame g = true ↔ g.status = "Final") ∧
    (∀ g : Game, v1ProcessesGame g = true →
      g.status ≠ "Postponed" ∧ g.status ≠ "Cancelled" ∧ g.status ≠ "Suspended") := by
  refine ⟨?_, ?_, ?_⟩
  · intro schedule saturday g hg
    have hmem := List.mem_of_mem_filter hg
    have hcond := List.of_mem_filter hg
    rw [Bool.and_eq_true, Bool.and_eq_true] at hcond
    obtain ⟨⟨hstatus, hsched⟩, hnum⟩ := hcond
    rw [Bool.not_eq_true', Bool.or_eq_false_iff, Bool.or_eq_false_iff] at hstatus
    obtain ⟨⟨ha, hb⟩, hc⟩ := hstatus
    have hnum' : g.gameNumber = 1 := beq_iff_eq.mp hnum
    have hsched' : isOriginallyScheduled g saturday = true := by simpa using hsched
    exact ⟨hmem, beq_eq_false_iff_ne.mp ha, beq_eq_false_iff_ne.mp hb,
      beq_eq_false_iff_ne.mp hc, by omega, hsched'⟩
  · intro g
    constructor
    · intro h
      exact beq_iff_eq.mp h
    · intro h
      exact beq_iff_eq.mpr h
  · intro g h
    have := beq_iff_eq.mp h
    rw [this]
    refine ⟨by decide, by decide, by decide⟩

/-- Witness for C7's amended theorem (the spec's own example): of a schedule
with one Postponed game, one doubleheader game 2, and one valid game, v2
selects exactly the valid game; and v1 processes the valid (Final) game. -/
theorem game_filtering_spec_witness :
    (⟨3, "Final", 1, false, false, some 613⟩ : Game).status ≠ "Postponed" ∧
    isOriginallyScheduled ⟨3, "Final", 1, false, false, some 613⟩ 613 = true ∧
    validGames
        [⟨1, "Postponed", 1, false, false, some 613⟩,
         ⟨2, "Final", 2, false, false, some 613⟩,
         ⟨3, "Final", 1, false, false, some 613⟩] 613 true =
      [⟨3, "Final", 1, false, false, some 613⟩] ∧
    v1ProcessesGame ⟨3, "Final", 1, false, false, some 613⟩ = true := by
  have h := game_filtering_spec.1
    [⟨1, "Postponed", 1, false, false, some 613⟩,
     ⟨2, "Final", 2, false, false, some 613⟩,
     ⟨3, "Final", 1, false, false, some 613⟩] 613
    ⟨3, "Final", 1, false, false, some 613⟩ (by decide)
  exact ⟨h.2.1, h.2.2.2.2.2, by decide, (game_filtering_spec.2.1 _).mpr rfl⟩

theorem lookupResult_map_update (table : List ResultRow) (p : Nat) (c : String)
    (f : ResultRow → ResultRow)
    (hf : ∀ r, (f r).player = r.player ∧ (f r).category = r.category) :
    lookupResult (table.map fun r => if resultMatches p c r then f r else r) p c =
      (lookupResult table p c).map f := by
  induction table with
  | nil => rfl
  | cons q tb ih =>
    show lookupResult ((if resultMatches p c q then f q else q) :: _) p c = _
    by_cases hq : resultMatches p c q
    · rw [if_pos hq]
      unfold lookupResult
      rw [List.find?_cons_of_pos _ (by
            unfold resultMatches at hq ⊢
            rw [(hf q).1, (hf q).2]
            exact hq),
          List.find?_cons_of_pos _ hq]
      rfl
    · rw [if_neg hq]
      unfold lookupResult
      rw [List.find?_cons_of_neg _ hq, List.find?_cons_of_neg _ hq]
      exact ih

/-- **C8.** The `WeeklyResult` upsert: when no row exists for the
(player, category) key, a row is created with the game's stat value and
achievement flag and the game id as provenance; when a row exists, the new
stat value is added, `achieved` is re-evaluated against the summed total via
the category thresholds (2H: ≥ 2; HR, SWP, S: ≥ 1), and the new game id is
appended to the provenance string. -/
theorem result_upsert_spec (table : List ResultRow) (p : Nat) (c : String)
    (achieved : Bool) (v : ℚ) (gid : Nat) :
    (lookupResult table p c = none →
      createOrUpdateResult table p c achieved v gid =
        table ++ [⟨p, c, achieved, v, toString gid⟩]) ∧
    (∀ r, lookupResult table p c = some r →
      lookupResult (createOrUpdateResult table p c achieved v gid) p c =
        some { r with statValue := r.statValue + v
                      achieved := checkAchievement c (r.statValue + v)
                      gameId := r.gameId ++ "," ++ toString gid }) ∧
    checkAchievement "2H" v = decide ((2 : ℚ) ≤ v) ∧
    checkAchievement "HR" v = decide ((1 : ℚ) ≤ v) ∧
    checkAchievement "SWP" v = decide ((1 : ℚ) ≤ v) ∧
    checkAchievement "S" v = decide ((1 : ℚ) ≤ v) := by
  refine ⟨?_, ?_, rfl, rfl, rfl, rfl⟩
  · intro h
    unfold createOrUpdateResult
    rw [h]
  · intro r h
    unfold createOrUpdateResult
    rw [h]
    rw [lookupResult_map_update table p c
          (fun r => { r with statValue := r.statValue + v
                             achieved := checkAchievement c (r.statValue + v)
                             gameId := r.gameId ++ "," ++ toString gid })
          (fun r => ⟨rfl, rfl⟩), h]
    rfl

/-- Witness for C8 (the spec's own example): a player with two qualifying
games of 1 and 2 hits ends with a 2H row whose `stat_value` is 3,
`achieved = true`, and provenance `"101,102"`. -/
theorem result_upsert_spec_witness :
    createOrUpdateResult [] 9 "2H" (decide ((2 : ℚ) ≤ 1)) 1 101 =
      [⟨9, "2H", false, 1, "101"⟩] ∧
    lookupResult (createOrUpdateResult [⟨9, "2H", false, 1, "101"⟩] 9 "2H"
        (decide ((2 : ℚ) ≤ 2)) 2 102) 9 "2H" =
      some ⟨9, "2H", true, 3, "101,102"⟩ := by
  have h1 := (result_upsert_spec [] 9 "2H" (decide ((2 : ℚ) ≤ 1)) 1 101).1 rfl
  have h2 := (result_upsert_spec [⟨9, "2H", false, 1, "101"⟩] 9 "2H"
    (decide ((2 : ℚ) ≤ 2)) 2 102).2.1 ⟨9, "2H", false, 1, "101"⟩ rfl
  constructor
  · rw [h1]
    have : decide ((2 : ℚ) ≤ 1) = false := by norm_num
    rw [this, List.nil_append]
    rfl
  · rw [h2]
    have h3 : checkAchievement "2H" ((1 : ℚ) + 2) = true := by
      norm_num [checkAchievement]
    simp only [h3]
    norm_num
    rfl

/-- **C10.** Batting results are materialized only for batters with at least
one hit: a batter with 0 hits contributes no `WeeklyResult` row for either
the 2H or the HR category (the table is unchanged), and a pick whose
(player, category) has no result row is scored as a miss with 0 points
through the no-result-data path. -/
theorem zero_hit_batter_spec :
    (∀ (table : List ResultRow) (p homeRuns gameId : Nat),
      processBatterStats table p 0 homeRuns gameId = table) ∧
    (∀ (pick : Pick) (table : List ResultRow),
      lookupResult table pick.player pick.category = none →
      (scoreSinglePick pick table).resultStatus = "miss" ∧
      (scoreSinglePick pick table).pointsEarned = 0 ∧
      (scoreSinglePick pick table).notes =
        "No result data available (player may not have played)") := by
  constructor
  · intro table p hr gid
    unfold processBatterStats
    norm_num
  · intro pick table h
    unfold scoreSinglePick
    rw [h]
    exact ⟨rfl, rfl, rfl⟩

/-- Witness for C10: a 0-hit batter leaves an empty result table empty, and
a 2H pick on that player scores as a no-data miss with 0 points. -/
theorem zero_hit_batter_spec_witness :
    processBatterStats [] 9 0 0 101 = [] ∧
    (scoreSinglePick ⟨1, 1, ⟨1, 2026⟩, 9, "2H", "pending", 0, ""⟩ []).resultStatus = "miss" ∧
    (scoreSinglePick ⟨1, 1, ⟨1, 2026⟩, 9, "2H", "pending", 0, ""⟩ []).pointsEarned = 0 := by
  have h1 := zero_hit_batter_spec.1 [] 9 0 101
  have h2 := zero_hit_batter_spec.2 ⟨1, 1, ⟨1, 2026⟩, 9, "2H", "pending", 0, ""⟩ [] rfl
  exact ⟨h1, h2.1, h2.2.1⟩

end Pick4
